import Mathlib

/-!
Shallow embedding of `src/app.py`, a Flask service exposing codon-usage
analytics over a CSV table loaded at startup.

Modelling conventions:
* Floating-point numbers are modelled as rationals (`ℚ`); `pandas` means of an
  empty selection (`NaN`) are mapped to `0` (only reachable outside the claims'
  hypotheses, noted at each definition).
* The usage table (`codon_df`) is a list of rows; each row carries the
  `SPECIESNAME` and `KINGDOM` metadata columns and a total valuation of the
  numeric columns (`fix_data_types` coerces every non-metadata cell to a
  number, filling failures with `0`, so totality is faithful).
* Stateful calls are embedded in state-passing style: each analysis function
  returns its result together with the usage table left behind by the call.
  `pandas.DataFrame.copy()` on an immutable value is the identity, and every
  column assignment in the source targets such a copy; the embedding keeps the
  copy-then-assign structure visible.
* JSON request values are an inductive `JVal` (strings, numbers, booleans,
  null — the subset needed to express the handler's behaviour); a Python
  `AttributeError`/`TypeError` escaping the handler is the `Outcome.crash`
  constructor, which Flask turns into an HTTP 500.
* `pandas.Series.str.contains(pat, case=False, na=False)` is modelled as
  case-insensitive literal substring search (the hosts in question contain no
  regex metacharacters).
* The trained model, the SHAP explainer and the evaluation-metrics JSON are
  external artifacts loaded at startup; they appear as opaque parameters of
  the environment (`Env`).
-/

/-- A JSON value as delivered by `request.json` (the subset of shapes the
handler's behaviour depends on). -/
inductive JVal where
  | str (s : String)
  | num (q : ℚ)
  | bool (b : Bool)
  | null
deriving DecidableEq

/-- Python truthiness of a `JVal` (`if codon:`, `if host:` …). -/
def JVal.truthy : JVal → Bool
  | .str s => s ≠ ""
  | .num q => q ≠ 0
  | .bool b => b
  | .null => false

/-- One row of `codon_df`: the `SPECIESNAME` and `KINGDOM` metadata columns and
the numeric cells, as a total valuation of column names (`fix_data_types`
coerces every non-metadata cell to a number, defaulting to `0`). -/
structure Row where
  speciesname : String
  kingdom : String
  vals : String → ℚ

/-- The usage table `codon_df`: its (uppercased, stripped) column names and its
rows. -/
structure Table where
  cols : List String
  rows : List Row

/-- Mean of a list of rationals (`pandas` mean; the empty mean, `NaN` in
pandas, is mapped to `0`). -/
def listMean (xs : List ℚ) : ℚ := xs.sum / xs.length

/-- Dataset-wide mean of a column: `codon_df[c].mean()`. -/
def Table.colMean (t : Table) (c : String) : ℚ :=
  listMean (t.rows.map (fun r => r.vals c))

/-- `pandas.DataFrame.copy()`: a deep copy of an immutable value is the value
itself. -/
def Table.copy (t : Table) : Table := t

/-- Column assignment `df[c] = f(row)` (`df_tmp["SCORE"] = …`,
`df["PREFERENCE_SCORE"] = …`): every row's valuation is updated at `c` from
the row's previous contents. -/
def Table.setCol (t : Table) (c : String) (f : Row → ℚ) : Table :=
  { cols := if c ∈ t.cols then t.cols else t.cols ++ [c],
    rows := t.rows.map (fun r =>
      { r with vals := fun c' => if c' = c then f r else r.vals c' }) }

/-- Python `str.upper()` (per-character ASCII upper-casing, as a list map so
that concrete instances compute). -/
def pyUpper (s : String) : String := ⟨s.data.map Char.toUpper⟩

/-- Python `str.lower()` (per-character ASCII lower-casing). -/
def pyLower (s : String) : String := ⟨s.data.map Char.toLower⟩

/-- Auxiliary for substring search: `pat` occurs at the start of `s`. -/
def leadsWith : List Char → List Char → Bool
  | _, [] => true
  | [], _ :: _ => false
  | c :: s, p :: ps => c == p && leadsWith s ps

/-- Auxiliary: `pat` occurs contiguously somewhere in `s`. -/
def hasSub : List Char → List Char → Bool
  | [], pat => pat.isEmpty
  | c :: t, pat => leadsWith (c :: t) pat || hasSub t pat

/-- `series.str.contains(pat, case=False, na=False)` applied to one cell:
case-insensitive literal substring search. -/
def strContainsCI (s pat : String) : Bool :=
  hasSub (pyLower s).data (pyLower pat).data

/-- `VALID_AA = set("ACDEFGHIKLMNPQRSTVWY")` (src/app.py line 53), as the set
of one-letter strings Python's `in` compares against. -/
def VALID_AA : List String :=
  ["A", "C", "D", "E", "F", "G", "H", "I", "K", "L", "M", "N",
   "P", "Q", "R", "S", "T", "V", "W", "Y"]

/-- The `AA_TO_CODONS` dict built from Biopython's unambiguous RNA codon
table 1 (src/app.py lines 55-58): for each amino acid, its synonymous RNA
codons in the table's iteration order. -/
def aaTable : List (String × List String) :=
  [("F", ["UUU", "UUC"]),
   ("L", ["UUA", "UUG", "CUU", "CUC", "CUA", "CUG"]),
   ("S", ["UCU", "UCC", "UCA", "UCG", "AGU", "AGC"]),
   ("Y", ["UAU", "UAC"]),
   ("C", ["UGU", "UGC"]),
   ("W", ["UGG"]),
   ("P", ["CCU", "CCC", "CCA", "CCG"]),
   ("H", ["CAU", "CAC"]),
   ("Q", ["CAA", "CAG"]),
   ("R", ["CGU", "CGC", "CGA", "CGG", "AGA", "AGG"]),
   ("I", ["AUU", "AUC", "AUA"]),
   ("M", ["AUG"]),
   ("T", ["ACU", "ACC", "ACA", "ACG"]),
   ("N", ["AAU", "AAC"]),
   ("K", ["AAA", "AAG"]),
   ("V", ["GUU", "GUC", "GUA", "GUG"]),
   ("A", ["GCU", "GCC", "GCA", "GCG"]),
   ("D", ["GAU", "GAC"]),
   ("E", ["GAA", "GAG"]),
   ("G", ["GGU", "GGC", "GGA", "GGG"])]

/-- `AA_TO_CODONS.get(aa, [])`; inside `analyze` the key is present, so the
`[]` default is only the `.get` fallback of the other callers. -/
def AA_TO_CODONS (aa : String) : List String :=
  ((aaTable.find? (fun p => p.1 = aa)).map (fun p => p.2)).getD []

/-- `codon.replace("U", "T")`: the single-character replacement is a character
map. -/
def replaceUT (s : String) : String :=
  ⟨s.data.map (fun c => if c = 'U' then 'T' else c)⟩

/-- `pandas.Series.quantile(0.25)` with the default linear interpolation, over
the rationals: with the values sorted ascending and `h = (n-1)/4`, the result
interpolates between the entries at `⌊h⌋` and `⌊h⌋+1`. The empty series
(`NaN` in pandas) is mapped to `0`. -/
def quantile25 (xs : List ℚ) : ℚ :=
  let s := xs.insertionSort (fun a b => a ≤ b)
  let n := s.length
  let i := (n - 1) / 4
  let r := (n - 1) % 4
  let a := s.getD i 0
  let b := s.getD (i + 1) a
  a + ((r : ℚ) / 4) * (b - a)

/-- One entry of the `codon_ranking` list built by `analyze` (src/app.py
lines 151-158). -/
structure RankEntry where
  rank : ℕ
  codon : String
  frequency : ℚ
  ml_weight : ℚ
deriving DecidableEq

/-- The success payload of `analyze` (src/app.py lines 173-177). -/
structure AnalyzeResult where
  codon_ranking : List RankEntry
  selected_rank : Option ℕ
  top_species : List (String × ℚ)
deriving DecidableEq

/-- `[c for c in AA_TO_CODONS.get(aa, []) if c in codon_df.columns]`: the
amino acid's synonymous codons present as columns of the usage table. -/
def codons_present (t : Table) (aa : String) : List String :=
  (AA_TO_CODONS aa).filter (fun c => c ∈ t.cols)

/-- `codon_df[codons].mean().sort_values(ascending=False)` as an association
list: the per-codon dataset-wide means, sorted descending (rendered as a
stable insertion sort; `pandas.sort_values` likewise produces an order that
is descending in the sort key). -/
def mean_usage_of (t : Table) (codons : List String) : List (String × ℚ) :=
  (codons.map (fun c => (c, t.colMean c))).insertionSort (fun p q => q.2 ≤ p.2)

/-- The `codon_ranking` built by `analyze`'s loop (src/app.py lines 147-158):
1-based rank, codon, mean frequency and the model's weight for the DNA form
of the codon. -/
def codon_ranking_of (feature_importance : String → Option ℚ)
    (mu : List (String × ℚ)) : List RankEntry :=
  mu.enum.map (fun ip =>
    { rank := ip.1 + 1, codon := ip.2.1, frequency := ip.2.2,
      ml_weight := (feature_importance (replaceUT ip.2.1)).getD 0 })

/-- The `selected_rank` accumulation of `analyze`'s loop (src/app.py
lines 148-149): the last index whose codon equals the selected codon wins,
as in the Python loop. -/
def selected_rank_of (sel : Option String) (mu : List (String × ℚ)) :
    Option ℕ :=
  mu.enum.foldl
    (fun acc ip => if some ip.2.1 = sel then some (ip.1 + 1) else acc) none

/-- The `SCORE` column of `analyze` (src/app.py lines 160-165): the selected
codon's column when it is one of the codons, else the row-wise sum. -/
def score_of (codons : List String) (sel : Option String) (r : Row) : ℚ :=
  match sel with
  | some c => if c ∈ codons then r.vals c else (codons.map r.vals).sum
  | none => (codons.map r.vals).sum

/-- `analyze`'s `top_species` (src/app.py lines 167-171): the five rows of
`df_tmp` (a copy with the `SCORE` column assigned) with the highest score,
projected to name and score. -/
def top_species_of (t : Table) (codons : List String) (sel : Option String) :
    List (String × ℚ) :=
  let df_tmp := t.copy.setCol "SCORE" (score_of codons sel)
  ((df_tmp.rows.insertionSort
      (fun a b => b.vals "SCORE" ≤ a.vals "SCORE")).take 5).map
    (fun r => (r.speciesname, r.vals "SCORE"))

/-- `analyze(aa, selected_codon)` (src/app.py lines 131-177) on string inputs,
returning the result or the error message, together with the usage table left
behind by the call: the one column assignment targets `df_tmp`, a copy (see
`top_species_of`); `feature_importance` is the external model artifact's
weight dict (`.get(key, 0.0)`). -/
def analyze (t : Table) (feature_importance : String → Option ℚ)
    (aa : String) (selected_codon : Option String) :
    Except String AnalyzeResult × Table :=
  let aaU := pyUpper aa
  let sel := selected_codon.bind (fun s => if s = "" then none else some (pyUpper s))
  if aaU ∈ VALID_AA then
    let codons := codons_present t aaU
    if codons = [] then (.error "No codon data available", t)
    else
      let mean_usage := mean_usage_of t codons
      (.ok { codon_ranking := codon_ranking_of feature_importance mean_usage,
             selected_rank := selected_rank_of sel mean_usage,
             top_species := top_species_of t codons sel }, t)
  else (.error "Invalid amino acid (use single-letter code)", t)

/-- The payload of `species_specific_analysis` (src/app.py lines 195-203). -/
structure SpeciesSpecific where
  top_species : List (String × ℚ)
  bottom_species : List (String × ℚ)
  explanation : String
deriving DecidableEq

/-- `species_specific_analysis(aa, codon)` (src/app.py lines 181-203); `aa`
and `codon` arrive raw from the request (no upper-casing here). The
normalisation divides by `max()` only when it is positive, so a `NaN` max of
an empty table (modelled `none`) skips it just as in pandas. Both column
assignments target `df`, a copy. -/
def species_specific_analysis (t : Table) (aa : String) (codon : Option String) :
    Option SpeciesSpecific × Table :=
  let codons := codons_present t aa
  if codons = [] then (none, t)
  else
    let pref : Row → ℚ := fun r =>
      match codon with
      | some c => if c ∈ codons then r.vals c else (codons.map r.vals).sum
      | none => (codons.map r.vals).sum
    let df := t.copy.setCol "PREFERENCE_SCORE" pref
    let max_val := ((df.rows.map (fun r => r.vals "PREFERENCE_SCORE")).max?).getD 0
    let df2 := if 0 < max_val then
        df.setCol "PREFERENCE_SCORE" (fun r => r.vals "PREFERENCE_SCORE" / max_val)
      else df
    let sortedDesc := df2.rows.insertionSort
      (fun a b => b.vals "PREFERENCE_SCORE" ≤ a.vals "PREFERENCE_SCORE")
    let sortedAsc := df2.rows.insertionSort
      (fun a b => a.vals "PREFERENCE_SCORE" ≤ b.vals "PREFERENCE_SCORE")
    (some { top_species := (sortedDesc.take 5).map
              (fun r => (r.speciesname, r.vals "PREFERENCE_SCORE")),
            bottom_species := (sortedAsc.take 5).map
              (fun r => (r.speciesname, r.vals "PREFERENCE_SCORE")),
            explanation := "Normalized species-level codon preference analysis." },
     t)

/-- The payload of `host_aware_optimization` (src/app.py lines 219-223). -/
structure HostOpt where
  host_species : String
  optimal_codon : String
  codon_ranking : List (String × ℚ)
deriving DecidableEq

/-- `host_aware_optimization(aa, host)` (src/app.py lines 207-223); `aa`
arrives raw from the request. When the host matches some rows but the (raw)
amino acid has no codon columns, `mean_usage.index[0]` raises `IndexError`
(the `.error` branch, an unhandled exception at the handler). -/
def host_aware_optimization (t : Table) (aa host : String) :
    Except Unit (Option HostOpt) × Table :=
  if host = "" then (.ok none, t)
  else
    let codons := codons_present t aa
    let df := t.rows.filter (fun r => strContainsCI r.speciesname host)
    if df.isEmpty then (.ok none, t)
    else
      let mean_usage := (codons.map
          (fun c => (c, listMean (df.map (fun r => r.vals c))))).insertionSort
        (fun p q => q.2 ≤ p.2)
      match mean_usage with
      | [] => (.error (), t)
      | p :: _ => (.ok (some { host_species := host, optimal_codon := p.1,
                               codon_ranking := mean_usage }), t)

/-- The payload of `rare_codon_risk` (src/app.py lines 242-248). -/
structure RareRisk where
  threshold : ℚ
  rare_codons : List (String × ℚ)
deriving DecidableEq

/-- `rare_codon_risk(aa, host)` (src/app.py lines 227-248); `aa` arrives raw
from the request. `mean_usage.quantile(0.25)` is `quantile25`; with no codon
columns the pandas threshold is `NaN` (modelled `0`) and the rare list is
empty either way. `sort_values()` sorts the surviving codons ascending by
usage. -/
def rare_codon_risk (t : Table) (aa host : String) : Option RareRisk × Table :=
  if host = "" then (none, t)
  else
    let codons := codons_present t aa
    let df := t.rows.filter (fun r => strContainsCI r.speciesname host)
    if df.isEmpty then (none, t)
    else
      let mean_usage := codons.map
        (fun c => (c, listMean (df.map (fun r => r.vals c))))
      let threshold := quantile25 (mean_usage.map (fun p => p.2))
      let rare_codons := (mean_usage.filter
          (fun p => p.2 ≤ threshold)).insertionSort (fun p q => p.2 ≤ q.2)
      (some { threshold := threshold, rare_codons := rare_codons }, t)

/-- The payload of `host_compatibility_score` (src/app.py lines 267-270). -/
structure HostCompat where
  host_species : String
  compatibility_score : ℚ
deriving DecidableEq

/-- Python `round(x, 2)` on the embedded rationals (ties are immaterial to the
claims). -/
def pyRound2 (q : ℚ) : ℚ := (round (q * 100) : ℤ) / 100

/-- `host_compatibility_score(aa, host)` (src/app.py lines 252-270); `aa`
arrives raw from the request. The rational `x / 0 = 0` convention stands in
for the float `inf` of a zero global profile (outside every claim's scope). -/
def host_compatibility_score (t : Table) (aa host : String) :
    Option HostCompat × Table :=
  if host = "" then (none, t)
  else
    let codons := codons_present t aa
    let host_df := t.rows.filter (fun r => strContainsCI r.speciesname host)
    if host_df.isEmpty then (none, t)
    else
      let host_profile : String → ℚ := fun c =>
        listMean (host_df.map (fun r => r.vals c))
      let similarity := 1 -
        ((codons.map (fun c => |host_profile c - t.colMean c|)).sum /
          (codons.map (fun c => t.colMean c)).sum)
      (some { host_species := host,
              compatibility_score := pyRound2 (similarity * 100) }, t)

/-- The SHAP cache `shap_cache` (src/app.py line 127): keys are the
`f"{codon}_{species}_{detailed}"` strings, values the computed explanation
payload (reduced to the explainer's per-feature output, see
`shap_explain_codon`). -/
def ShapCache : Type := List (String × List ℚ)

/-- Python's f-string rendering of the optional species (`None` when absent). -/
def speciesStr : Option String → String
  | some s => s
  | none => "None"

/-- `shap_explain_codon(codon, species, detailed)` (src/app.py lines 274-368).
The explainer call and the model artifact are external; the function's payload
is reduced to the explainer's per-feature output on the chosen sample. What is
kept faithfully is everything that touches program state: the guards, the
cache lookup and insertion, the species-filtered sample built from the usage
table, and the table left behind by the call (the function only reads it).
The surrounding `try` returns `None` on any exception, so the call never
crashes the handler. -/
def shap_explain_codon (t : Table) (FEATURE_COLUMNS : List String)
    (explainer : (String → ℚ) → List ℚ) (X_background : String → ℚ)
    (cache : ShapCache) (codon : String) (species : Option String)
    (detailed : Bool) : Option (List ℚ) × ShapCache × Table :=
  if codon = "" then (none, cache, t)
  else
    let feature := replaceUT codon
    if feature ∈ FEATURE_COLUMNS then
      let cache_key := codon ++ "_" ++ speciesStr species ++ "_" ++
        (if detailed then "True" else "False")
      match List.lookup cache_key cache with
      | some v => (some v, cache, t)
      | none =>
        let X_sample : String → ℚ :=
          match species with
          | some sp =>
            if sp = "" then X_background
            else
              let species_df := t.rows.filter
                (fun r => strContainsCI r.speciesname sp)
              if species_df.isEmpty then X_background
              else fun c => listMean (species_df.map (fun r => r.vals c))
          | none => X_background
        let shap_values := explainer X_sample
        (some shap_values, (cache_key, shap_values) :: cache, t)
    else (none, cache, t)

/-- One iteration of the per-codon loop of `shap_summary_by_amino_acid`
(src/app.py lines 551-559): one `shap_explain_codon` call on the current
state, appending the codon's explanation when one is produced. -/
def shap_summary_step (FEATURE_COLUMNS : List String)
    (explainer : (String → ℚ) → List ℚ) (X_background : String → ℚ)
    (st : List (String × List ℚ) × ShapCache × Table) (c : String) :
    List (String × List ℚ) × ShapCache × Table :=
  let step := shap_explain_codon st.2.2 FEATURE_COLUMNS explainer
    X_background st.2.1 c none false
  (match step.1 with
   | some v => st.1 ++ [(c, v)]
   | none => st.1,
   step.2.1, step.2.2)

/-- `shap_summary_by_amino_acid(aa)` (src/app.py lines 534-567), reduced to
its state interactions: it upper-cases `aa`, rejects unknown amino acids, and
folds `shap_summary_step` over the amino acid's codon columns, threading the
cache and reading the table. The payload ranking step orders the per-codon
explanations by the explainer's summed output, as the source orders by
`prediction`. -/
def shap_summary_by_amino_acid (t : Table) (FEATURE_COLUMNS : List String)
    (explainer : (String → ℚ) → List ℚ) (X_background : String → ℚ)
    (cache : ShapCache) (aa : String) :
    Option (String × ℕ × List (String × List ℚ)) × ShapCache × Table :=
  let aaU := pyUpper aa
  if (aaTable.find? (fun p => p.1 = aaU)).isSome then
    let codons := codons_present t aaU
    let folded := codons.foldl
      (shap_summary_step FEATURE_COLUMNS explainer X_background)
      (([] : List (String × List ℚ)), cache, t)
    let ranked := folded.1.insertionSort (fun p q => q.2.sum ≤ p.2.sum)
    (some (aaU, codons.length, ranked), folded.2.1, folded.2.2)
  else (none, cache, t)

/-- The `model_metrics` dict of the response (src/app.py lines 602-615),
each field read from the `EVAL_METRICS` record with `.get` (absent keys give
`None`). -/
structure ModelMetrics where
  top1_accuracy : Option ℚ
  top2_accuracy : Option ℚ
  top3_accuracy : Option ℚ
  «precision» : Option ℚ
  «recall» : Option ℚ
  f1_score : Option ℚ
  loss : Option ℚ
  accuracy_clean : Option ℚ
  accuracy_noisy : Option ℚ
  accuracy_missing : Option ℚ
  accuracy_codon_only : Option ℚ
  accuracy_codon_bwt : Option ℚ
deriving DecidableEq

/-- Builds `model_metrics` from the startup `EVAL_METRICS` record (src/app.py
lines 602-615). -/
def model_metrics_of (em : String → Option ℚ) : ModelMetrics :=
  { top1_accuracy := em "accuracy_top1",
    top2_accuracy := em "accuracy_top2",
    top3_accuracy := em "accuracy_top3",
    «precision» := em "precision",
    «recall» := em "recall",
    f1_score := em "f1_score",
    loss := em "loss",
    accuracy_clean := em "accuracy_clean",
    accuracy_noisy := em "accuracy_noisy",
    accuracy_missing := em "accuracy_missing",
    accuracy_codon_only := em "accuracy_codon_only",
    accuracy_codon_bwt := em "accuracy_codon_bwt" }

/-- The JSON body of a successful `POST /analyze` response (src/app.py
lines 589-616). -/
structure ResponseBody where
  codon_ranking : List RankEntry
  selected_rank : Option ℕ
  top_species : List (String × ℚ)
  species_specific_analysis : Option SpeciesSpecific
  host_aware_optimization : Option HostOpt
  rare_codon_risk : Option RareRisk
  host_compatibility_score : Option HostCompat
  shap_explanation : Option (List ℚ)
  model_metrics : ModelMetrics
deriving DecidableEq

/-- Outcome of one `POST /analyze` request: a 500 from an exception escaping
the handler (Flask's default handling of an uncaught error), the 400 error
body, or the 200 success body. -/
inductive Outcome where
  | crash
  | badRequest (error : String)
  | ok (body : ResponseBody)
deriving DecidableEq

/-- HTTP status of an outcome. -/
def statusOf : Outcome → ℕ
  | .crash => 500
  | .badRequest _ => 400
  | .ok _ => 200

/-- Process state loaded at startup (src/app.py lines 16-127): the usage
table, the model's feature-importance dict, the `EVAL_METRICS` record, the
feature columns, the SHAP explainer (opaque), the background sample mean and
the (initially empty) SHAP cache. -/
structure Env where
  codon_df : Table
  feature_importance : String → Option ℚ
  EVAL_METRICS : String → Option ℚ
  FEATURE_COLUMNS : List String
  explainer : (String → ℚ) → List ℚ
  X_background : String → ℚ
  shap_cache : ShapCache

/-- The `POST /analyze` handler `analyze_api` (src/app.py lines 577-618).
Request fields default to `""`; `aa.upper()` inside `analyze` raises
`AttributeError` on a non-string amino acid, `selected_codon.upper()` raises
on a truthy non-string codon, and `str.contains(host)` raises `TypeError` on
a truthy non-string host — all uncaught, hence `Outcome.crash` (HTTP 500).
The helper calls receive `aa`, `codon` and `host` exactly as the source
passes them (raw, not upper-cased). -/
def analyze_api (env : Env) (data : String → Option JVal) : Outcome :=
  let aaV := (data "amino_acid").getD (.str "")
  let codonV := (data "codon").getD (.str "")
  let hostV := (data "host_species").getD (.str "")
  match aaV with
  | .str aa =>
    let codonArg : Except Unit (Option String) :=
      match codonV with
      | .str c => .ok (some c)
      | v => if v.truthy then .error () else .ok none
    match codonArg with
    | .error _ => .crash
    | .ok sel =>
      match analyze env.codon_df env.feature_importance aa sel with
      | (.error msg, _) => .badRequest msg
      | (.ok result, _) =>
        let hostArg : Except Unit String :=
          match hostV with
          | .str h => .ok h
          | v => if v.truthy then .error () else .ok ""
        match hostArg with
        | .error _ => .crash
        | .ok host =>
          match host_aware_optimization env.codon_df aa host with
          | (.error _, _) => .crash
          | (.ok hao, _) =>
            let shapE :=
              match sel with
              | some c =>
                if c = "" then none
                else (shap_explain_codon env.codon_df env.FEATURE_COLUMNS
                    env.explainer env.X_background env.shap_cache c
                    (some host) true).1
              | none => none
            .ok { codon_ranking := result.codon_ranking,
                  selected_rank := result.selected_rank,
                  top_species := result.top_species,
                  species_specific_analysis :=
                    (species_specific_analysis env.codon_df aa sel).1,
                  host_aware_optimization := hao,
                  rare_codon_risk := (rare_codon_risk env.codon_df aa host).1,
                  host_compatibility_score :=
                    (host_compatibility_score env.codon_df aa host).1,
                  shap_explanation := shapE,
                  model_metrics := model_metrics_of env.EVAL_METRICS }
  | _ => .crash

/-- The route table registered on the Flask app via `@app.route`
(src/app.py lines 572-685): path pattern and accepted methods (Flask's
default is `GET`). -/
def routes : List (String × List String) :=
  [("/", ["GET"]),
   ("/analyze", ["POST"]),
   ("/shap/compare", ["POST"]),
   ("/shap/global-importance", ["GET"]),
   ("/shap/waterfall/<codon>", ["GET"]),
   ("/shap/force-plot/<codon>", ["GET"]),
   ("/shap/amino-acid-summary/<aa>", ["GET"])]

/-- Modelled from the spec: `src/app.py` contains no bias-score computation
(the spec's "bias score for a specific codon relative to the global mean"
belongs to a revision not in the repository). Following the spec's words:
the bias score of a codon at a row is the codon's value at that row divided
by the codon's dataset-wide mean, and it is absent when that mean is zero. -/
def bias_score (t : Table) (codon : String) (r : Row) : Option ℚ :=
  let m := t.colMean codon
  if m = 0 then none else some (r.vals codon / m)

/-- Mean, over the rows whose `KINGDOM` equals `k`, of the row-wise sum of the
given codon columns (the per-group aggregate of the kingdom comparison). -/
def group_mean (t : Table) (codons : List String) (k : String) : ℚ :=
  listMean ((t.rows.filter (fun r => r.kingdom = k)).map
    (fun r => (codons.map r.vals).sum))

/-- Modelled from the spec: `src/app.py` contains no kingdom-comparison
computation (the spec's "breakdown by taxonomic kingdom" belongs to a
revision not in the repository). Following the spec's words: the comparison
partitions the rows by their `KINGDOM` value and reports each group's mean,
one entry per distinct kingdom present. -/
def kingdom_comparison (t : Table) (codons : List String) :
    List (String × ℚ) :=
  ((t.rows.map (fun r => r.kingdom)).dedup).map
    (fun k => (k, group_mean t codons k))

/-- A concrete usage-table row for witnesses (an `Escherichia coli`-like row). -/
def rowEx1 : Row :=
  { speciesname := "Escherichia coli", kingdom := "bct",
    vals := fun c => if c = "UUU" then 2 else 0 }

/-- A second concrete usage-table row for witnesses. -/
def rowEx2 : Row :=
  { speciesname := "Homo sapiens", kingdom := "pri",
    vals := fun c => if c = "UUU" then 4 else if c = "UUC" then 1 else 0 }

/-- A small concrete usage table for witnesses. -/
def tableEx : Table :=
  { cols := ["SPECIESNAME", "KINGDOM", "UUU", "UUC"],
    rows := [rowEx1, rowEx2] }

/-- A concrete startup environment for witnesses. -/
def envEx : Env :=
  { codon_df := tableEx,
    feature_importance := fun _ => none,
    EVAL_METRICS := fun k => if k = "precision" then some (9/10) else none,
    FEATURE_COLUMNS := ["TTT", "TTC"],
    explainer := fun _ => [],
    X_background := fun _ => 0,
    shap_cache := [] }

/-- C8 (counterexample): the spec promises a `GET /health` endpoint reporting
the dataset load status, but no `/health` route is registered on the app. -/
theorem C8_counterexample : "/health" ∉ routes.map Prod.fst := by decide

/-- C8 (amended): the service registers exactly the routes `/`, `/analyze`
and the five `/shap/*` endpoints; in particular it exposes no `GET /health`
endpoint, so no endpoint reports the dataset load status. -/
theorem C8_no_health_route :
    routes.map Prod.fst =
      ["/", "/analyze", "/shap/compare", "/shap/global-importance",
       "/shap/waterfall/<codon>", "/shap/force-plot/<codon>",
       "/shap/amino-acid-summary/<aa>"] ∧
    "/health" ∉ routes.map Prod.fst := by decide

/-- C3: for every codon and every row of the usage table, the bias score for
that codon equals the codon's value at that row divided by the codon's
dataset-wide mean, and it is absent whenever that mean is zero. (The
bias-score computation is absent from `src/app.py`; `bias_score` is modelled
from the spec.) -/
theorem C3_bias_score_spec (t : Table) (codon : String) (r : Row) :
    (t.colMean codon ≠ 0 →
      bias_score t codon r = some (r.vals codon / t.colMean codon)) ∧
    (t.colMean codon = 0 → bias_score t codon r = none) := by
  constructor <;> intro h <;> simp [bias_score, h]

/-- Witness for C3 at a concrete table and row. -/
theorem C3_bias_score_witness :
    bias_score tableEx "UUU" rowEx1 = some (2 / 3) ∧
    bias_score tableEx "ZZZ" rowEx1 = none := by
  constructor
  · have h := (C3_bias_score_spec tableEx "UUU" rowEx1).1
      (by simp [Table.colMean, listMean, tableEx, rowEx1, rowEx2]; norm_num)
    refine h.trans ?_
    simp [Table.colMean, listMean, tableEx, rowEx1, rowEx2]
    norm_num
  · exact (C3_bias_score_spec tableEx "ZZZ" rowEx1).2
      (by simp [Table.colMean, listMean, tableEx, rowEx1, rowEx2])

/-- C4: the kingdom comparison reports, for every returned kingdom, the mean
of the group of rows carrying that kingdom, and the set of returned kingdoms
is exactly the set of kingdom values present in the table. (The
kingdom-comparison computation is absent from `src/app.py`;
`kingdom_comparison` is modelled from the spec.) -/
theorem C4_kingdom_comparison_spec (t : Table) (codons : List String) :
    (∀ p ∈ kingdom_comparison t codons, p.2 = group_mean t codons p.1) ∧
    (∀ k : String, (∃ v, (k, v) ∈ kingdom_comparison t codons) ↔
      k ∈ t.rows.map (fun r => r.kingdom)) := by
  constructor
  · intro p hp
    rcases List.mem_map.1 hp with ⟨k, _, rfl⟩
    rfl
  · intro k
    constructor
    · rintro ⟨v, hv⟩
      rcases List.mem_map.1 hv with ⟨k', hk', heq⟩
      injection heq with h1 _
      subst h1
      exact List.mem_dedup.1 hk'
    · intro hk
      exact ⟨group_mean t codons k,
        List.mem_map.2 ⟨k, List.mem_dedup.2 hk, rfl⟩⟩

/-- Witness for C4 at a concrete table: the kingdom of the first example row
is reported. -/
theorem C4_kingdom_comparison_witness :
    ∃ v, ("bct", v) ∈ kingdom_comparison tableEx ["UUU", "UUC"] :=
  ((C4_kingdom_comparison_spec tableEx ["UUU", "UUC"]).2 "bct").mpr (by decide)

/-- `shap_explain_codon` only reads the usage table: the table component of
its result is its input table. -/
theorem shap_explain_codon_table_eq (t : Table) (FC : List String)
    (ex : (String → ℚ) → List ℚ) (bg : String → ℚ) (cache : ShapCache)
    (codon : String) (species : Option String) (detailed : Bool) :
    (shap_explain_codon t FC ex bg cache codon species detailed).2.2 = t := by
  simp only [shap_explain_codon]
  repeat first
  | rfl
  | split

/-- One summary step leaves the table component of the fold state unchanged. -/
theorem shap_summary_step_table_eq (FC : List String)
    (ex : (String → ℚ) → List ℚ) (bg : String → ℚ)
    (st : List (String × List ℚ) × ShapCache × Table) (c : String) :
    (shap_summary_step FC ex bg st c).2.2 = st.2.2 := by
  show (shap_explain_codon st.2.2 FC ex bg st.2.1 c none false).2.2 = st.2.2
  exact shap_explain_codon_table_eq _ _ _ _ _ _ _ _

/-- The summary fold leaves the table component of the fold state unchanged. -/
theorem shap_summary_fold_table_eq (FC : List String)
    (ex : (String → ℚ) → List ℚ) (bg : String → ℚ) :
    ∀ (cs : List String) (st : List (String × List ℚ) × ShapCache × Table),
      (cs.foldl (shap_summary_step FC ex bg) st).2.2 = st.2.2
  | [], _ => rfl
  | c :: cs, st => by
      rw [List.foldl_cons, shap_summary_fold_table_eq FC ex bg cs]
      exact shap_summary_step_table_eq FC ex bg st c

/-- C7: the usage table is immutable after startup — every analysis operation
(`analyze`, `species_specific_analysis`, `host_aware_optimization`,
`rare_codon_risk`, `host_compatibility_score` and the SHAP explanation
functions) returns the loaded usage table unchanged. The proofs are largely
definitional because every column assignment in the source targets a
`.copy()` of the table and the SHAP functions only read it. -/
theorem C7_usage_table_immutable (t : Table) (fi : String → Option ℚ)
    (aa host : String) (sc : Option String) (FC : List String)
    (ex : (String → ℚ) → List ℚ) (bg : String → ℚ) (cache : ShapCache)
    (codon : String) (species : Option String) (detailed : Bool) :
    (analyze t fi aa sc).2 = t ∧
    (species_specific_analysis t aa sc).2 = t ∧
    (host_aware_optimization t aa host).2 = t ∧
    (rare_codon_risk t aa host).2 = t ∧
    (host_compatibility_score t aa host).2 = t ∧
    (shap_explain_codon t FC ex bg cache codon species detailed).2.2 = t ∧
    (shap_summary_by_amino_acid t FC ex bg cache aa).2.2 = t := by
  refine ⟨?_, ?_, ?_, ?_, ?_, shap_explain_codon_table_eq t FC ex bg cache codon species detailed, ?_⟩
  · simp only [analyze]
    repeat first | rfl | split
  · simp only [species_specific_analysis]
    repeat first | rfl | split
  · simp only [host_aware_optimization]
    repeat first | rfl | split
  · simp only [rare_codon_risk]
    repeat first | rfl | split
  · simp only [host_compatibility_score]
    repeat first | rfl | split
  · simp only [shap_summary_by_amino_acid]
    split
    · exact shap_summary_fold_table_eq FC ex bg _ _
    · rfl

/-- `analyze` on an invalid amino acid returns the error message (and the
table unchanged). -/
theorem analyze_invalid (t : Table) (fi : String → Option ℚ) (aa : String)
    (sc : Option String) (h : pyUpper aa ∉ VALID_AA) :
    analyze t fi aa sc =
      (.error "Invalid amino acid (use single-letter code)", t) := by
  simp only [analyze]
  rw [if_neg h]

/-- `analyze` on a valid amino acid with at least one codon column present
returns a success payload. -/
theorem analyze_ok (t : Table) (fi : String → Option ℚ) (aa : String)
    (sc : Option String) (hvalid : pyUpper aa ∈ VALID_AA)
    (hcodons : codons_present t (pyUpper aa) ≠ []) :
    ∃ res, analyze t fi aa sc = (.ok res, t) := by
  simp only [analyze]
  rw [if_pos hvalid, if_neg hcodons]
  exact ⟨_, rfl⟩

/-- `host_aware_optimization` returns `None` when no row's species name
contains the host (also when the host is empty). -/
theorem host_aware_no_match (t : Table) (aa host : String)
    (hnm : ∀ r ∈ t.rows, strContainsCI r.speciesname host = false) :
    host_aware_optimization t aa host = (.ok none, t) := by
  simp only [host_aware_optimization]
  by_cases hh : host = ""
  · rw [if_pos hh]
  · rw [if_neg hh]
    have hfil : t.rows.filter (fun r => strContainsCI r.speciesname host) = [] :=
      List.filter_eq_nil_iff.mpr (fun r hr => by simp [hnm r hr])
    rw [hfil]
    rfl

/-- `rare_codon_risk` returns `None` when no row's species name contains the
host (also when the host is empty). -/
theorem rare_codon_risk_no_match (t : Table) (aa host : String)
    (hnm : ∀ r ∈ t.rows, strContainsCI r.speciesname host = false) :
    rare_codon_risk t aa host = (none, t) := by
  simp only [rare_codon_risk]
  by_cases hh : host = ""
  · rw [if_pos hh]
  · rw [if_neg hh]
    have hfil : t.rows.filter (fun r => strContainsCI r.speciesname host) = [] :=
      List.filter_eq_nil_iff.mpr (fun r hr => by simp [hnm r hr])
    rw [hfil]
    rfl

/-- `host_compatibility_score` returns `None` when no row's species name
contains the host (also when the host is empty). -/
theorem host_compat_no_match (t : Table) (aa host : String)
    (hnm : ∀ r ∈ t.rows, strContainsCI r.speciesname host = false) :
    host_compatibility_score t aa host = (none, t) := by
  simp only [host_compatibility_score]
  by_cases hh : host = ""
  · rw [if_pos hh]
  · rw [if_neg hh]
    have hfil : t.rows.filter (fun r => strContainsCI r.speciesname host) = [] :=
      List.filter_eq_nil_iff.mpr (fun r hr => by simp [hnm r hr])
    rw [hfil]
    rfl

/-- Shape of a successful `analyze_api` response: with string-valued request
fields, a successful `analyze` and a non-crashing `host_aware_optimization`,
the handler answers 200 and assembles the body from the helper calls. -/
theorem analyze_api_ok_of (env : Env) (data : String → Option JVal)
    (aa c h : String) (res : AnalyzeResult) (hao : Option HostOpt)
    (haa : (data "amino_acid").getD (.str "") = .str aa)
    (hcod : (data "codon").getD (.str "") = .str c)
    (hhost : (data "host_species").getD (.str "") = .str h)
    (hres : analyze env.codon_df env.feature_importance aa (some c) =
      (.ok res, env.codon_df))
    (hhao : host_aware_optimization env.codon_df aa h =
      (.ok hao, env.codon_df)) :
    analyze_api env data = .ok
      { codon_ranking := res.codon_ranking,
        selected_rank := res.selected_rank,
        top_species := res.top_species,
        species_specific_analysis :=
          (species_specific_analysis env.codon_df aa (some c)).1,
        host_aware_optimization := hao,
        rare_codon_risk := (rare_codon_risk env.codon_df aa h).1,
        host_compatibility_score := (host_compatibility_score env.codon_df aa h).1,
        shap_explanation :=
          if c = "" then none
          else (shap_explain_codon env.codon_df env.FEATURE_COLUMNS env.explainer
            env.X_background env.shap_cache c (some h) true).1,
        model_metrics := model_metrics_of env.EVAL_METRICS } := by
  simp only [analyze_api, haa, hcod, hhost, hres, hhao]

/-- A request with a numeric (non-string) `amino_acid` field. -/
def dataBadAA : String → Option JVal := fun k =>
  if k = "amino_acid" then some (.num 5) else none

/-- C2 (counterexample): a request whose `amino_acid` field is the JSON
number `5` — not a valid single-letter amino-acid code — makes `aa.upper()`
raise `AttributeError` inside `analyze`, and Flask answers 500, not 400. -/
theorem C2_counterexample : statusOf (analyze_api envEx dataBadAA) = 500 := rfl

/-- C2 (amended): for every request whose `amino_acid` field is a string that
is not a valid single-letter amino-acid code (absent fields default to `""`),
and whose `codon` field is not a truthy non-string, the response status
is 400. (As stated the claim fails: a truthy non-string `amino_acid` or
`codon` value crashes the handler with an `AttributeError` and surfaces as a
500 — see the counterexample.) -/
theorem C2_invalid_aa_400 (env : Env) (data : String → Option JVal) (s : String)
    (haa : (data "amino_acid").getD (.str "") = .str s)
    (hs : pyUpper s ∉ VALID_AA)
    (hc : ((data "codon").getD (.str "")).truthy = true →
      ∃ c, (data "codon").getD (.str "") = .str c) :
    statusOf (analyze_api env data) = 400 := by
  simp only [analyze_api, haa]
  rcases hcv : (data "codon").getD (.str "") with c | q | b | _ <;>
    simp only [hcv] at hc ⊢
  · rw [analyze_invalid env.codon_df env.feature_importance s (some c) hs]
    rfl
  · by_cases hq : q = 0
    · subst hq
      have ht : JVal.truthy (.num 0) = false := by simp [JVal.truthy]
      rw [ht]
      simp only [Bool.false_eq_true, if_false]
      rw [analyze_invalid env.codon_df env.feature_importance s none hs]
      rfl
    · have ht : JVal.truthy (.num q) = true := by simp [JVal.truthy, hq]
      rcases hc ht with ⟨c, hcc⟩
      simp at hcc
  · cases b
    · have ht : JVal.truthy (.bool false) = false := rfl
      rw [ht]
      simp only [Bool.false_eq_true, if_false]
      rw [analyze_invalid env.codon_df env.feature_importance s none hs]
      rfl
    · rcases hc rfl with ⟨c, hcc⟩
      simp at hcc
  · have ht : JVal.truthy .null = false := rfl
    rw [ht]
    simp only [Bool.false_eq_true, if_false]
    rw [analyze_invalid env.codon_df env.feature_importance s none hs]
    rfl

/-- A request with an unknown (string) amino acid. -/
def dataBadAAStr : String → Option JVal := fun k =>
  if k = "amino_acid" then some (.str "Z") else none

/-- Witness for C2's amended theorem: the unknown amino acid `"Z"` gets
a 400. -/
theorem C2_invalid_aa_400_witness :
    statusOf (analyze_api envEx dataBadAAStr) = 400 :=
  C2_invalid_aa_400 envEx dataBadAAStr "Z" rfl (by decide) (fun _ => ⟨"", rfl⟩)

/-- A request with a valid amino acid and a host matching no row of the
example table. -/
def dataNoHost : String → Option JVal := fun k =>
  if k = "amino_acid" then some (.str "F")
  else if k = "host_species" then some (.str "zzz") else none

/-- C5 (counterexample): with the valid amino acid `"F"` and the host
`"zzz"` that matches no row of the example table, the response is a 200 —
not the 400 the claim states. -/
theorem C5_counterexample : statusOf (analyze_api envEx dataNoHost) = 200 := by
  obtain ⟨res, hres⟩ := analyze_ok tableEx (fun _ => none) "F" (some "")
    (by decide) (by decide)
  rw [analyze_api_ok_of envEx dataNoHost "F" "" "zzz" res none rfl rfl rfl hres
    (host_aware_no_match tableEx "F" "zzz" (by decide))]
  rfl

/-- C5 (amended): a request with a valid amino acid whose `host_species`
matches no row of the usage table is answered with HTTP 200, with the
host-dependent sections (`host_aware_optimization`, `rare_codon_risk`,
`host_compatibility_score`) null in the body — not with a 400 as the claim
states. -/
theorem C5_missing_host_200 (env : Env) (data : String → Option JVal)
    (aa c h : String)
    (haa : (data "amino_acid").getD (.str "") = .str aa)
    (hcod : (data "codon").getD (.str "") = .str c)
    (hhost : (data "host_species").getD (.str "") = .str h)
    (hvalid : pyUpper aa ∈ VALID_AA)
    (hcodons : codons_present env.codon_df (pyUpper aa) ≠ [])
    (hnomatch : ∀ r ∈ env.codon_df.rows,
      strContainsCI r.speciesname h = false) :
    ∃ body, analyze_api env data = .ok body ∧
      body.host_aware_optimization = none ∧
      body.rare_codon_risk = none ∧
      body.host_compatibility_score = none ∧
      statusOf (analyze_api env data) = 200 := by
  obtain ⟨res, hres⟩ := analyze_ok env.codon_df env.feature_importance aa
    (some c) hvalid hcodons
  have hok := analyze_api_ok_of env data aa c h res none haa hcod hhost hres
    (host_aware_no_match env.codon_df aa h hnomatch)
  refine ⟨_, hok, rfl, ?_, ?_, by rw [hok]; rfl⟩
  · show (rare_codon_risk env.codon_df aa h).1 = none
    rw [rare_codon_risk_no_match env.codon_df aa h hnomatch]
  · show (host_compatibility_score env.codon_df aa h).1 = none
    rw [host_compat_no_match env.codon_df aa h hnomatch]

/-- Witness for C5's amended theorem at the concrete table and request. -/
theorem C5_missing_host_200_witness :
    ∃ body, analyze_api envEx dataNoHost = .ok body ∧
      body.host_aware_optimization = none := by
  obtain ⟨body, h1, h2, -, -, -⟩ := C5_missing_host_200 envEx dataNoHost
    "F" "" "zzz" rfl rfl rfl (by decide) (by decide) (by decide)
  exact ⟨body, h1, h2⟩

/-- Every `analyze_api` outcome is a crash, an error response, or a success
whose `model_metrics` is the one assembled from `EVAL_METRICS`. -/
theorem analyze_api_cases (env : Env) (data : String → Option JVal) :
    analyze_api env data = .crash ∨
    (∃ msg, analyze_api env data = .badRequest msg) ∨
    (∃ body, analyze_api env data = .ok body ∧
      body.model_metrics = model_metrics_of env.EVAL_METRICS) := by
  simp only [analyze_api]
  repeat first
    | exact Or.inl rfl
    | exact Or.inr (Or.inl ⟨_, rfl⟩)
    | exact Or.inr (Or.inr ⟨_, rfl, rfl⟩)
    | split

/-- C6: the evaluation-metrics record is loaded once at startup and echoed
verbatim — on every successful request, each `model_metrics` field of the
response equals the corresponding entry of the `EVAL_METRICS` record. -/
theorem C6_model_metrics_echoed (env : Env) (data : String → Option JVal)
    (body : ResponseBody) (h : analyze_api env data = .ok body) :
    body.model_metrics.top1_accuracy = env.EVAL_METRICS "accuracy_top1" ∧
    body.model_metrics.top2_accuracy = env.EVAL_METRICS "accuracy_top2" ∧
    body.model_metrics.top3_accuracy = env.EVAL_METRICS "accuracy_top3" ∧
    body.model_metrics.«precision» = env.EVAL_METRICS "precision" ∧
    body.model_metrics.«recall» = env.EVAL_METRICS "recall" ∧
    body.model_metrics.f1_score = env.EVAL_METRICS "f1_score" ∧
    body.model_metrics.loss = env.EVAL_METRICS "loss" ∧
    body.model_metrics.accuracy_clean = env.EVAL_METRICS "accuracy_clean" ∧
    body.model_metrics.accuracy_noisy = env.EVAL_METRICS "accuracy_noisy" ∧
    body.model_metrics.accuracy_missing = env.EVAL_METRICS "accuracy_missing" ∧
    body.model_metrics.accuracy_codon_only =
      env.EVAL_METRICS "accuracy_codon_only" ∧
    body.model_metrics.accuracy_codon_bwt =
      env.EVAL_METRICS "accuracy_codon_bwt" := by
  have hm : body.model_metrics = model_metrics_of env.EVAL_METRICS := by
    rcases analyze_api_cases env data with hc | ⟨msg, hc⟩ | ⟨b, hb, hm'⟩
    · rw [h] at hc; cases hc
    · rw [h] at hc; cases hc
    · rw [h] at hb
      injection hb with hb'
      rw [hb']
      exact hm'
  rw [hm]
  exact ⟨rfl, rfl, rfl, rfl, rfl, rfl, rfl, rfl, rfl, rfl, rfl, rfl⟩

/-- A request with only a valid amino acid. -/
def dataOkF : String → Option JVal := fun k =>
  if k = "amino_acid" then some (.str "F") else none

/-- Witness for C6 at a concrete environment and request. -/
theorem C6_model_metrics_witness :
    ∃ body, analyze_api envEx dataOkF = .ok body ∧
      body.model_metrics.«precision» = envEx.EVAL_METRICS "precision" := by
  obtain ⟨res, hres⟩ := analyze_ok tableEx (fun _ => none) "F" (some "")
    (by decide) (by decide)
  have hok := analyze_api_ok_of envEx dataOkF "F" "" "" res none rfl rfl rfl hres rfl
  exact ⟨_, hok, (C6_model_metrics_echoed envEx dataOkF _ hok).2.2.2.1⟩

/-- Every `AA_TO_CODONS` list is duplicate-free. -/
theorem AA_TO_CODONS_nodup (aa : String) : (AA_TO_CODONS aa).Nodup := by
  unfold AA_TO_CODONS
  cases h : aaTable.find? (fun p => p.1 = aa) with
  | none => simp
  | some p =>
      have hmem := List.mem_of_find?_eq_some h
      have hall : ∀ q ∈ aaTable, q.2.Nodup := by decide
      simpa using hall p hmem

/-- The codons present for an amino acid are duplicate-free. -/
theorem codons_present_nodup (t : Table) (aa : String) :
    (codons_present t aa).Nodup :=
  (AA_TO_CODONS_nodup aa).filter _

/-- Insertion sort descending in a rational key is sorted for that order. -/
theorem sorted_insertionSort_desc {α : Type} (f : α → ℚ) (l : List α) :
    (l.insertionSort (fun p q => f q ≤ f p)).Sorted (fun p q => f q ≤ f p) := by
  haveI : IsTotal α (fun p q => f q ≤ f p) := ⟨fun a b => le_total (f b) (f a)⟩
  haveI : IsTrans α (fun p q => f q ≤ f p) :=
    ⟨fun a b c hab hbc => le_trans hbc hab⟩
  exact List.sorted_insertionSort _ l

/-- Insertion sort ascending in a rational key is sorted for that order. -/
theorem sorted_insertionSort_asc {α : Type} (f : α → ℚ) (l : List α) :
    (l.insertionSort (fun p q => f p ≤ f q)).Sorted (fun p q => f p ≤ f q) := by
  haveI : IsTotal α (fun p q => f p ≤ f q) := ⟨fun a b => le_total (f a) (f b)⟩
  haveI : IsTrans α (fun p q => f p ≤ f q) :=
    ⟨fun a b c hab hbc => le_trans hab hbc⟩
  exact List.sorted_insertionSort _ l

/-- The mean-usage list is sorted descending in the mean. -/
theorem mean_usage_sorted (t : Table) (codons : List String) :
    (mean_usage_of t codons).Sorted (fun p q => q.2 ≤ p.2) :=
  sorted_insertionSort_desc (fun p : String × ℚ => p.2) _

/-- The mean-usage list is a permutation of the per-codon mean pairs. -/
theorem mean_usage_perm (t : Table) (codons : List String) :
    (mean_usage_of t codons).Perm (codons.map (fun c => (c, t.colMean c))) :=
  List.perm_insertionSort _ _

/-- The codons of the mean-usage list are a permutation of the codon list. -/
theorem mean_usage_fst_perm (t : Table) (codons : List String) :
    ((mean_usage_of t codons).map Prod.fst).Perm codons := by
  have h := (mean_usage_perm t codons).map Prod.fst
  have h2 : (codons.map (fun c => (c, t.colMean c))).map Prod.fst = codons := by
    rw [List.map_map]
    exact List.map_id' codons
  rwa [h2] at h

/-- Mapping a function of the element over an enumeration forgets the
indices. -/
theorem enum_map_comp_snd {α β : Type} (l : List α) (g : α → β) :
    l.enum.map (fun ip => g ip.2) = l.map g := by
  have h : (l.enum.map Prod.snd).map g = l.map g := by
    rw [List.enum_map_snd]
  rw [List.map_map] at h
  exact h

/-- Explicit success form of `analyze`: on a valid amino acid with codon
columns present, the payload is assembled from the named pieces. -/
theorem analyze_ok_form (t : Table) (fi : String → Option ℚ) (aa : String)
    (sc : Option String) (hvalid : pyUpper aa ∈ VALID_AA)
    (hcodons : codons_present t (pyUpper aa) ≠ []) :
    analyze t fi aa sc =
      (.ok { codon_ranking := codon_ranking_of fi
               (mean_usage_of t (codons_present t (pyUpper aa))),
             selected_rank := selected_rank_of
               (sc.bind (fun s => if s = "" then none else some (pyUpper s)))
               (mean_usage_of t (codons_present t (pyUpper aa))),
             top_species := top_species_of t (codons_present t (pyUpper aa))
               (sc.bind (fun s => if s = "" then none else some (pyUpper s))) },
       t) := by
  simp only [analyze]
  rw [if_pos hvalid, if_neg hcodons]

/-- C1: for every valid single-letter amino acid (and any optional selected
codon), `analyze` succeeds, its `codon_ranking` carries the dataset-wide mean
frequency of each codon, is sorted in descending order of those means, and
its codon set is exactly the amino acid's synonymous codons that appear as
columns of the usage table. -/
theorem C1_codon_ranking_sorted_complete (t : Table) (fi : String → Option ℚ)
    (aa : String) (sc : Option String)
    (hvalid : pyUpper aa ∈ VALID_AA)
    (hcodons : codons_present t (pyUpper aa) ≠ []) :
    ∃ res, (analyze t fi aa sc).1 = .ok res ∧
      (res.codon_ranking.map (fun e => e.frequency)).Sorted (fun a b => b ≤ a) ∧
      (∀ e ∈ res.codon_ranking, e.frequency = t.colMean e.codon) ∧
      (res.codon_ranking.map (fun e => e.codon)).Perm
        (codons_present t (pyUpper aa)) := by
  have hform := analyze_ok_form t fi aa sc hvalid hcodons
  refine ⟨_, by rw [hform], ?_, ?_, ?_⟩
  · have h1 : (codon_ranking_of fi
        (mean_usage_of t (codons_present t (pyUpper aa)))).map
          (fun e => e.frequency)
        = (mean_usage_of t (codons_present t (pyUpper aa))).map
          (fun p => p.2) := by
      simp only [codon_ranking_of, List.map_map]
      exact enum_map_comp_snd (mean_usage_of t (codons_present t (pyUpper aa)))
        (fun p : String × ℚ => p.2)
    rw [h1]
    exact List.Pairwise.map _ (fun a b h => h)
      (mean_usage_sorted t (codons_present t (pyUpper aa)))
  · intro e he
    simp only [codon_ranking_of, List.mem_map] at he
    rcases he with ⟨ip, hip, rfl⟩
    have h2 : ip.2 ∈ mean_usage_of t (codons_present t (pyUpper aa)) := by
      have h := List.mem_map_of_mem Prod.snd hip
      rwa [List.enum_map_snd] at h
    have h3 := (mean_usage_perm t (codons_present t (pyUpper aa))).mem_iff.1 h2
    rcases List.mem_map.1 h3 with ⟨c, _, hcp⟩
    show ip.2.2 = t.colMean ip.2.1
    rw [← hcp]
  · have h1 : (codon_ranking_of fi
        (mean_usage_of t (codons_present t (pyUpper aa)))).map
          (fun e => e.codon)
        = (mean_usage_of t (codons_present t (pyUpper aa))).map
          (fun p => p.1) := by
      simp only [codon_ranking_of, List.map_map]
      exact enum_map_comp_snd (mean_usage_of t (codons_present t (pyUpper aa)))
        (fun p : String × ℚ => p.1)
    rw [h1]
    exact mean_usage_fst_perm t _

/-- Witness for C1 at the example table and amino acid `"F"`. -/
theorem C1_codon_ranking_witness :
    ∃ res, (analyze tableEx (fun _ => none) "F" none).1 = .ok res ∧
      (res.codon_ranking.map (fun e => e.codon)).Perm
        (codons_present tableEx (pyUpper "F")) := by
  obtain ⟨res, h1, -, -, h4⟩ := C1_codon_ranking_sorted_complete tableEx
    (fun _ => none) "F" none (by decide) (by decide)
  exact ⟨res, h1, h4⟩

/-- The rank-accumulating fold returns its accumulator when no codon of the
list equals the selected codon. -/
theorem rank_foldl_no_match (sel : Option String) :
    ∀ (l : List (String × ℚ)) (n : ℕ) (acc : Option ℕ),
      (∀ p ∈ l, some p.1 ≠ sel) →
      (List.enumFrom n l).foldl
        (fun acc ip => if some ip.2.1 = sel then some (ip.1 + 1) else acc) acc
        = acc
  | [], _, _, _ => rfl
  | p :: l, n, acc, h => by
      rw [List.enumFrom_cons, List.foldl_cons]
      dsimp only
      rw [if_neg (h p (List.mem_cons_self _ _))]
      exact rank_foldl_no_match sel l (n + 1) acc
        (fun q hq => h q (List.mem_cons_of_mem _ hq))

/-- The rank-accumulating fold over a list with exactly one matching codon
returns that codon's 1-based position. -/
theorem rank_foldl_unique (sel : Option String) (c : String) (v : ℚ)
    (l₂ : List (String × ℚ)) (hc : some c = sel)
    (h₂ : ∀ p ∈ l₂, some p.1 ≠ sel) :
    ∀ (l₁ : List (String × ℚ)) (n : ℕ) (acc : Option ℕ),
      (∀ p ∈ l₁, some p.1 ≠ sel) →
      (List.enumFrom n (l₁ ++ (c, v) :: l₂)).foldl
        (fun acc ip => if some ip.2.1 = sel then some (ip.1 + 1) else acc) acc
        = some (n + l₁.length + 1)
  | [], n, acc, _ => by
      rw [List.nil_append, List.enumFrom_cons, List.foldl_cons]
      dsimp only
      rw [if_pos hc, rank_foldl_no_match sel l₂ (n + 1) _ h₂]
      simp
  | p :: l₁, n, acc, h₁ => by
      rw [List.cons_append, List.enumFrom_cons, List.foldl_cons]
      dsimp only
      rw [if_neg (h₁ p (List.mem_cons_self _ _))]
      rw [rank_foldl_unique sel c v l₂ hc h₂ l₁ (n + 1) acc
        (fun q hq => h₁ q (List.mem_cons_of_mem _ hq))]
      congr 1
      rw [List.length_cons]
      omega

/-- `selected_rank_of` is `None` when no codon of the list matches. -/
theorem selected_rank_of_none (sel : Option String) (mu : List (String × ℚ))
    (h : ∀ p ∈ mu, some p.1 ≠ sel) : selected_rank_of sel mu = none := by
  unfold selected_rank_of
  rw [List.enum_eq_enumFrom]
  exact rank_foldl_no_match sel mu 0 none h

/-- `selected_rank_of` on a list with exactly one matching codon is that
codon's 1-based position. -/
theorem selected_rank_of_unique (sel : Option String) (c : String) (v : ℚ)
    (l₁ l₂ : List (String × ℚ)) (hc : some c = sel)
    (h₁ : ∀ p ∈ l₁, some p.1 ≠ sel) (h₂ : ∀ p ∈ l₂, some p.1 ≠ sel) :
    selected_rank_of sel (l₁ ++ (c, v) :: l₂) = some (l₁.length + 1) := by
  unfold selected_rank_of
  rw [List.enum_eq_enumFrom]
  have h := rank_foldl_unique sel c v l₂ hc h₂ l₁ 0 none h₁
  simpa using h

/-- Every reported top species is a table row, scored by `score_of`. -/
theorem top_species_of_mem (t : Table) (codons : List String)
    (sel : Option String) :
    ∀ p ∈ top_species_of t codons sel, ∃ row ∈ t.rows,
      p.1 = row.speciesname ∧ p.2 = score_of codons sel row := by
  intro p hp
  simp only [top_species_of] at hp
  rcases List.mem_map.1 hp with ⟨r', hr', rfl⟩
  have hr2 : r' ∈ (t.copy.setCol "SCORE" (score_of codons sel)).rows :=
    (List.mem_insertionSort _).1 (List.mem_of_mem_take hr')
  simp only [Table.copy, Table.setCol, List.mem_map] at hr2
  rcases hr2 with ⟨row, hrow, rfl⟩
  refine ⟨row, hrow, rfl, ?_⟩
  show (if "SCORE" = "SCORE" then score_of codons sel row else row.vals "SCORE")
      = score_of codons sel row
  rw [if_pos rfl]

/-- A selected codon present among duplicate-free codons splits the
mean-usage list around its unique occurrence. -/
theorem mean_usage_split (t : Table) (codons : List String)
    (hnd : codons.Nodup) (sU : String) (hmem : sU ∈ codons) :
    ∃ v l₁ l₂, mean_usage_of t codons = l₁ ++ (sU, v) :: l₂ ∧
      (∀ p ∈ l₁, p.1 ≠ sU) ∧ (∀ p ∈ l₂, p.1 ≠ sU) := by
  have hfst := mean_usage_fst_perm t codons
  have hmem2 : sU ∈ (mean_usage_of t codons).map Prod.fst := hfst.mem_iff.2 hmem
  rcases List.mem_map.1 hmem2 with ⟨⟨q1, q2⟩, hq, hq1⟩
  dsimp at hq1
  subst hq1
  obtain ⟨l₁, l₂, hsplit⟩ := List.append_of_mem hq
  have hnd2 : ((mean_usage_of t codons).map Prod.fst).Nodup :=
    hfst.nodup_iff.mpr hnd
  rw [hsplit, List.map_append, List.map_cons] at hnd2
  rcases List.nodup_append.1 hnd2 with ⟨-, hnd3, hdisj⟩
  rcases List.nodup_cons.1 hnd3 with ⟨hnotl₂, -⟩
  refine ⟨q2, l₁, l₂, hsplit, ?_, ?_⟩
  · intro p hp hpe
    have hin : p.1 ∈ l₁.map Prod.fst := List.mem_map_of_mem Prod.fst hp
    have hout := hdisj hin
    exact hout (hpe ▸ List.mem_cons_self _ _)
  · intro p hp hpe
    have hin : p.1 ∈ l₂.map Prod.fst := List.mem_map_of_mem Prod.fst hp
    rw [hpe] at hin
    exact hnotl₂ hin

/-- C9: in `analyze` with a non-empty selected codon, `selected_rank` is the
1-based position of the (upper-cased) selected codon in the descending
mean-frequency ranking when it is one of the amino acid's synonymous codons
present in the dataset, and `None` otherwise; correspondingly each
top-species score is the selected codon's column when it is such a codon,
and otherwise the row-wise sum over the codons present. -/
theorem C9_selected_rank_and_scores (t : Table) (fi : String → Option ℚ)
    (aa s : String) (hvalid : pyUpper aa ∈ VALID_AA)
    (hcodons : codons_present t (pyUpper aa) ≠ []) (hs : s ≠ "") :
    ∃ res, (analyze t fi aa (some s)).1 = .ok res ∧
      (pyUpper s ∈ codons_present t (pyUpper aa) →
        ∃ k e, res.selected_rank = some k ∧
          res.codon_ranking.get? (k - 1) = some e ∧ e.codon = pyUpper s) ∧
      (pyUpper s ∉ codons_present t (pyUpper aa) →
        res.selected_rank = none) ∧
      (∀ p ∈ res.top_species, ∃ row ∈ t.rows,
        p.1 = row.speciesname ∧
        p.2 = if pyUpper s ∈ codons_present t (pyUpper aa)
          then row.vals (pyUpper s)
          else ((codons_present t (pyUpper aa)).map row.vals).sum) := by
  have hform := analyze_ok_form t fi aa (some s) hvalid hcodons
  have hbind : (some s).bind (fun x => if x = "" then none else some (pyUpper x))
      = some (pyUpper s) := by simp [hs]
  rw [hbind] at hform
  refine ⟨_, by rw [hform], ?_, ?_, ?_⟩
  · intro hmem
    obtain ⟨v, l₁, l₂, hsplit, h₁, h₂⟩ := mean_usage_split t
      (codons_present t (pyUpper aa)) (codons_present_nodup t (pyUpper aa))
      (pyUpper s) hmem
    refine ⟨l₁.length + 1,
      { rank := l₁.length + 1, codon := pyUpper s, frequency := v,
        ml_weight := (fi (replaceUT (pyUpper s))).getD 0 }, ?_, ?_, rfl⟩
    · show selected_rank_of (some (pyUpper s))
        (mean_usage_of t (codons_present t (pyUpper aa))) = some (l₁.length + 1)
      rw [hsplit]
      exact selected_rank_of_unique (some (pyUpper s)) (pyUpper s) v l₁ l₂ rfl
        (fun p hp he => h₁ p hp (Option.some.inj he))
        (fun p hp he => h₂ p hp (Option.some.inj he))
    · show (codon_ranking_of fi
          (mean_usage_of t (codons_present t (pyUpper aa)))).get?
          (l₁.length + 1 - 1) = _
      rw [Nat.add_sub_cancel]
      simp only [codon_ranking_of]
      rw [List.get?_eq_getElem?, List.getElem?_map, List.getElem?_enum,
        hsplit, List.getElem?_append_right (le_refl _)]
      simp
  · intro hnotmem
    show selected_rank_of (some (pyUpper s))
      (mean_usage_of t (codons_present t (pyUpper aa))) = none
    refine selected_rank_of_none _ _ (fun p hp he => ?_)
    have hin : p.1 ∈ (mean_usage_of t (codons_present t (pyUpper aa))).map
        Prod.fst := List.mem_map_of_mem Prod.fst hp
    have := (mean_usage_fst_perm t (codons_present t (pyUpper aa))).mem_iff.1 hin
    rw [Option.some.inj he] at this
    exact hnotmem this
  · intro p hp
    obtain ⟨row, hrow, hname, hscore⟩ := top_species_of_mem t
      (codons_present t (pyUpper aa)) (some (pyUpper s)) p hp
    exact ⟨row, hrow, hname, hscore⟩

/-- Witness for C9 at the example table: the selected codon `"uuu"` is found
at its rank in the ranking. -/
theorem C9_selected_rank_witness :
    ∃ res k e, (analyze tableEx (fun _ => none) "F" (some "uuu")).1 = .ok res ∧
      res.selected_rank = some k ∧
      res.codon_ranking.get? (k - 1) = some e ∧ e.codon = pyUpper "uuu" := by
  obtain ⟨res, h1, h2, -, -⟩ := C9_selected_rank_and_scores tableEx
    (fun _ => none) "F" "uuu" (by decide) (by decide) (by decide)
  obtain ⟨k, e, hk, hke, hc⟩ := h2 (by decide)
  exact ⟨res, k, e, h1, hk, hke, hc⟩

/-- Some element of a non-empty list lies at or below its 25th percentile:
the linearly interpolated quantile never goes below the minimum. -/
theorem exists_le_quantile25 (xs : List ℚ) (hxs : xs ≠ []) :
    ∃ x ∈ xs, x ≤ quantile25 xs := by
  simp only [quantile25]
  set s := xs.insertionSort (fun a b => a ≤ b) with hsdef
  have hlen : 0 < s.length := by
    rw [hsdef, List.length_insertionSort]
    exact List.length_pos.2 hxs
  have hsorted : s.Sorted (fun a b => a ≤ b) := by
    rw [hsdef]
    exact sorted_insertionSort_asc (fun a : ℚ => a) xs
  have hi : (s.length - 1) / 4 < s.length :=
    lt_of_le_of_lt (Nat.div_le_self _ _) (Nat.sub_lt hlen Nat.one_pos)
  have hmem : s.get ⟨0, hlen⟩ ∈ xs := by
    have hmem0 : s.get ⟨0, hlen⟩ ∈ s := List.get_mem s 0 hlen
    exact (List.mem_insertionSort _).1 hmem0
  refine ⟨s.get ⟨0, hlen⟩, hmem, ?_⟩
  have ha : s.getD ((s.length - 1) / 4) 0 = s.get ⟨(s.length - 1) / 4, hi⟩ := by
    rw [List.getD_eq_getElem?_getD, List.getElem?_eq_getElem hi]
    rfl
  have h0a : s.get ⟨0, hlen⟩ ≤ s.get ⟨(s.length - 1) / 4, hi⟩ :=
    hsorted.rel_get_of_le (Fin.mk_le_mk.mpr (Nat.zero_le _))
  have hfrac : (0 : ℚ) ≤ (((s.length - 1) % 4 : ℕ) : ℚ) / 4 := by positivity
  by_cases hib : (s.length - 1) / 4 + 1 < s.length
  · have hb : s.getD ((s.length - 1) / 4 + 1) (s.getD ((s.length - 1) / 4) 0)
        = s.get ⟨(s.length - 1) / 4 + 1, hib⟩ := by
      rw [List.getD_eq_getElem?_getD, List.getElem?_eq_getElem hib]
      rfl
    have hab : s.get ⟨(s.length - 1) / 4, hi⟩ ≤
        s.get ⟨(s.length - 1) / 4 + 1, hib⟩ :=
      hsorted.rel_get_of_le (Fin.mk_le_mk.mpr (Nat.le_succ _))
    rw [hb, ha]
    have hprod : 0 ≤ (((s.length - 1) % 4 : ℕ) : ℚ) / 4 *
        (s.get ⟨(s.length - 1) / 4 + 1, hib⟩ - s.get ⟨(s.length - 1) / 4, hi⟩) :=
      mul_nonneg hfrac (sub_nonneg.2 hab)
    linarith
  · have hb : s.getD ((s.length - 1) / 4 + 1) (s.getD ((s.length - 1) / 4) 0)
        = s.getD ((s.length - 1) / 4) 0 := by
      rw [List.getD_eq_getElem?_getD s ((s.length - 1) / 4 + 1)
        (s.getD ((s.length - 1) / 4) 0)]
      rw [List.getElem?_eq_none (le_of_not_lt hib)]
      rfl
    rw [hb, ha]
    simp only [sub_self, mul_zero, add_zero]
    exact h0a

/-- C10: for every non-empty host matching at least one usage-table row and
every amino acid with at least one synonymous codon present in the dataset,
`rare_codon_risk` returns a non-empty list of rare codons (the minimum-usage
codon always satisfies usage ≤ the 25th-percentile threshold), each listed
codon's usage is at most the returned threshold, and the list is sorted
ascending by usage. -/
theorem C10_rare_codon_risk (t : Table) (aa host : String) (hhost : host ≠ "")
    (hmatch : ∃ r ∈ t.rows, strContainsCI r.speciesname host = true)
    (hcodons : codons_present t aa ≠ []) :
    ∃ rr, (rare_codon_risk t aa host).1 = some rr ∧
      rr.rare_codons ≠ [] ∧
      (∀ p ∈ rr.rare_codons, p.2 ≤ rr.threshold) ∧
      (rr.rare_codons.map (fun p => p.2)).Sorted (fun a b => a ≤ b) := by
  obtain ⟨r0, hr0, hr0m⟩ := hmatch
  have hne : t.rows.filter (fun r => strContainsCI r.speciesname host) ≠ [] := by
    intro h
    exact absurd hr0m (by simpa using (List.filter_eq_nil_iff.1 h) r0 hr0)
  have hdf : (t.rows.filter
      (fun r => strContainsCI r.speciesname host)).isEmpty = false := by
    cases hfe : (t.rows.filter (fun r => strContainsCI r.speciesname host)).isEmpty with
    | false => rfl
    | true => exact absurd (List.isEmpty_iff.1 hfe) hne
  simp only [rare_codon_risk]
  rw [if_neg hhost, hdf]
  simp only [Bool.false_eq_true, if_false]
  refine ⟨_, rfl, ?_, ?_, ?_⟩
  · -- non-emptiness via the minimum element
    have hmune : (codons_present t aa).map (fun c =>
        (c, listMean ((t.rows.filter (fun r => strContainsCI r.speciesname host)).map
          (fun r => r.vals c)))) ≠ [] := by
      simpa using hcodons
    have hvne : ((codons_present t aa).map (fun c =>
        (c, listMean ((t.rows.filter (fun r => strContainsCI r.speciesname host)).map
          (fun r => r.vals c))))).map (fun p => p.2) ≠ [] := by
      simpa using hmune
    obtain ⟨x, hx, hxle⟩ := exists_le_quantile25 _ hvne
    rcases List.mem_map.1 hx with ⟨p, hp, rfl⟩
    have hpf : p ∈ ((codons_present t aa).map (fun c =>
        (c, listMean ((t.rows.filter (fun r => strContainsCI r.speciesname host)).map
          (fun r => r.vals c))))).filter
        (fun p => p.2 ≤ quantile25 (((codons_present t aa).map (fun c =>
          (c, listMean ((t.rows.filter (fun r => strContainsCI r.speciesname host)).map
            (fun r => r.vals c))))).map (fun p => p.2))) :=
      List.mem_filter.2 ⟨hp, decide_eq_true hxle⟩
    intro hnil
    have hlen0 : (((codons_present t aa).map (fun c =>
        (c, listMean ((t.rows.filter (fun r => strContainsCI r.speciesname host)).map
          (fun r => r.vals c))))).filter
        (fun p => p.2 ≤ quantile25 (((codons_present t aa).map (fun c =>
          (c, listMean ((t.rows.filter (fun r => strContainsCI r.speciesname host)).map
            (fun r => r.vals c))))).map (fun p => p.2)))).length = 0 := by
      have := congrArg List.length hnil
      rwa [List.length_insertionSort] at this
    rw [List.length_eq_zero] at hlen0
    rw [hlen0] at hpf
    exact List.not_mem_nil p hpf
  · intro p hp
    have hp2 := (List.mem_insertionSort _).1 hp
    exact of_decide_eq_true (List.mem_filter.1 hp2).2
  · exact List.Pairwise.map _ (fun a b h => h)
      (sorted_insertionSort_asc (fun p : String × ℚ => p.2) _)

/-- Witness for C10 at the example table: host `"coli"`, amino acid `"F"`. -/
theorem C10_rare_codon_risk_witness :
    ∃ rr, (rare_codon_risk tableEx "F" "coli").1 = some rr ∧
      rr.rare_codons ≠ [] := by
  obtain ⟨rr, h1, h2, -, -⟩ := C10_rare_codon_risk tableEx "F" "coli"
    (by decide) ⟨rowEx1, by simp [tableEx], by decide⟩ (by decide)
  exact ⟨rr, h1, h2⟩
